import Mathlib

/-!
Shallow embedding of `scripts/image_tools/hdr.py` (Radiance RGBE codec).

The byte stream of a `.hdr` file is modelled as a `List Nat` (one entry per
byte, each in `[0, 255]`).  Python 2 floats are modelled as real numbers.

The header-parsing loop of `HDR.load_from_file` reads `\n`-terminated lines
and dispatches on them; we model it as a structurally recursive scan over the
byte list that accumulates the current line (`headerLoopAux`), dispatching
each completed line through `headerStep`, exactly mirroring the five cases of
the Python loop (blank line, signature, resolution line, recognized keys,
anything else = start of pixel data).

The regex `^(.)(.)\s(\d+)\s(.)(.)\s(\d+)$` is modelled by `matchSize`.
Because every token of that pattern other than `\d+` has a fixed width, and
`\d+` is always followed by a token that cannot match a digit (`\s` or the
end anchor), the Python backtracking match is equivalent to the greedy
deterministic matcher written here.  The `$` anchor matches either at the end
of the string or just before a trailing newline; lines produced by
`readline` contain a newline only as their final byte, so this is modelled
by stripping one trailing newline byte (`stripTrailingNL`).
-/

/-- Byte value of the newline character. -/
def NL : Nat := 10

/-- Bytes of the signature `#?RADIANCE` (without the newline). -/
def SIG : List Nat := [35, 63, 82, 65, 68, 73, 65, 78, 67, 69]

/-- Bytes of the header text `FORMAT=32-bit_rle_rgbe` written by `HDR.save`
(without the newline). -/
def FORMATCORE : List Nat :=
  [70, 79, 82, 77, 65, 84, 61, 51, 50, 45, 98, 105, 116, 95, 114, 108, 101, 95, 114, 103, 98, 101]

/-- Recognized header-key byte strings that `load_from_file` skips:
`FORMAT=`, `EXPOSURE=`, `COLORCORR=`, `SOFTWARE=`, `PIXASPECT=`, `VIEW=`,
`PRIMARIES=`, `GAMMA=` and the comment marker `# `. -/
def IGNORED_PFX : List (List Nat) :=
  [[70, 79, 82, 77, 65, 84, 61],
   [69, 88, 80, 79, 83, 85, 82, 69, 61],
   [67, 79, 76, 79, 82, 67, 79, 82, 82, 61],
   [83, 79, 70, 84, 87, 65, 82, 69, 61],
   [80, 73, 88, 65, 83, 80, 69, 67, 84, 61],
   [86, 73, 69, 87, 61],
   [80, 82, 73, 77, 65, 82, 73, 69, 83, 61],
   [71, 65, 77, 77, 65, 61],
   [35, 32]]

/-- Python's `\d` character class restricted to bytes: ASCII `0`..`9`. -/
def isDigitByte (b : Nat) : Bool := 48 ≤ b && b ≤ 57

/-- Python's `\s` character class restricted to bytes: space, `\t`, `\n`, `\v`, `\f`, `\r`. -/
def isSpaceByte (b : Nat) : Bool := b == 32 || b == 9 || b == 10 || b == 11 || b == 12 || b == 13

/-- Handling of the `$` anchor: drop one trailing newline byte if present. -/
def stripTrailingNL (l : List Nat) : List Nat :=
  if l.getLast? = some NL then l.dropLast else l

/-- The six capture groups of `^(.)(.)\s(\d+)\s(.)(.)\s(\d+)$`:
two single bytes, a digit string, two single bytes, a digit string. -/
structure SizeGroups where
  g1 : Nat
  g2 : Nat
  g3 : List Nat
  g4 : Nat
  g5 : Nat
  g6 : List Nat
deriving DecidableEq, Repr

/-- Matcher for `re.match(r'^(.)(.)\s(\d+)\s(.)(.)\s(\d+)$', line)` on a byte
line.  `(.)` matches any byte other than newline, `\s` a whitespace byte,
`\d+` a maximal nonempty digit run (see the header comment for why greedy
matching is faithful here). -/
def matchSizeCore : List Nat → Option SizeGroups
  | c1 :: c2 :: s1 :: rest =>
    if c1 ≠ NL ∧ c2 ≠ NL ∧ isSpaceByte s1 then
      let d1 := rest.takeWhile isDigitByte
      match rest.dropWhile isDigitByte with
      | s2 :: c4 :: c5 :: s3 :: rest2 =>
        if d1 ≠ [] ∧ isSpaceByte s2 ∧ c4 ≠ NL ∧ c5 ≠ NL ∧ isSpaceByte s3 then
          let d2 := rest2.takeWhile isDigitByte
          if d2 ≠ [] ∧ rest2.dropWhile isDigitByte = [] then
            some ⟨c1, c2, d1, c4, c5, d2⟩
          else none
        else none
      | _ => none
    else none
  | _ => none

/-- The full regex match: the `$`-anchor newline handling, then the pattern
proper. -/
def matchSize (line : List Nat) : Option SizeGroups :=
  matchSizeCore (stripTrailingNL line)

/-- Python `int()` on a string of ASCII digits. -/
def parseDigits (l : List Nat) : Nat :=
  l.foldl (fun a d => 10 * a + (d - 48)) 0

/-- State of the header-parsing loop: the five fields of the `HDR` object that
the loop assigns, plus the local `header` flag of `load_from_file`.
`width` and `height` start at `-1` as set by `HDR.__init__`. -/
structure ParseState where
  width : Int
  height : Int
  xFlipped : Bool
  yFlipped : Bool
  rotated : Bool
  header : Bool
deriving DecidableEq, Repr

/-- Initial parse state: the field values set by `HDR.__init__` and
`header = False`. -/
def initState : ParseState :=
  { width := -1, height := -1, xFlipped := false, yFlipped := false,
    rotated := false, header := false }

/-- Field assignments performed when the resolution-line regex matches:
`rotated = (group(2) == 'X')`,
`xFlipped = (group(1 if rotated else 4) == '-')`,
`yFlipped = (group(4 if rotated else 1) == '+')`,
`width = int(group(6))`, `height = int(group(3))`.
ASCII: `X` = 88, `-` = 45, `+` = 43. -/
def applySize (st : ParseState) (g : SizeGroups) : ParseState :=
  let rot := g.g2 == 88
  { st with
    rotated := rot
    xFlipped := (if rot then g.g1 else g.g4) == 45
    yFlipped := (if rot then g.g4 else g.g1) == 43
    width := (parseDigits g.g6 : Int)
    height := (parseDigits g.g3 : Int) }

/-- One dispatch of the loop body on a completed line: `some st'` when the
line is consumed as a header line (blank, signature, resolution line, or a
recognized key / comment), `none` when the loop `break`s on it, i.e. the
line starts the pixel data. -/
def headerStep (st : ParseState) (line : List Nat) : Option ParseState :=
  if line = [NL] then some st
  else if line = SIG ∨ line = SIG ++ [NL] then some { st with header := true }
  else
    match matchSize line with
    | some g => some (applySize st g)
    | none =>
      if IGNORED_PFX.any (fun p => p.isPrefixOf line) then some st
      else none

/-- The `while line:` loop of `load_from_file`.  `acc` is the partial current
line (bytes read since the last newline).  Returns the final state together
with the data bytes `line + f.read()` (the line that caused the `break`
followed by the remainder of the stream; empty when end of stream was
reached while still consuming header lines). -/
def headerLoopAux : ParseState → List Nat → List Nat → ParseState × List Nat
  | st, acc, [] =>
    if acc = [] then (st, [])
    else
      match headerStep st acc with
      | some st' => (st', [])
      | none => (st, acc)
  | st, acc, b :: rest =>
    if b = NL then
      match headerStep st (acc ++ [NL]) with
      | some st' => headerLoopAux st' [] rest
      | none => (st, (acc ++ [NL]) ++ rest)
    else headerLoopAux st (acc ++ [b]) rest

/-- Result of the parsing phase of `load_from_file`: header fields plus the
raw (still RGBE-encoded) data bytes. -/
structure RawHDR where
  data : List Nat
  width : Int
  height : Int
  xFlipped : Bool
  yFlipped : Bool
  rotated : Bool
deriving DecidableEq, Repr

/-- Header parsing and validation phase of `HDR.load_from_file`: the line
loop followed by the three `assert` statements (`Invalid header.`,
`Invalid dimensions.`, flip/rotation support), in source order.  Everything
after this phase in `load_from_file` is pure arithmetic that cannot fail. -/
def parseFile (stream : List Nat) : Except String RawHDR :=
  let r := headerLoopAux initState [] stream
  let st := r.1
  let data := r.2
  if st.header = true then
    if 4 * st.width * st.height = (data.length : Int) ∧ 0 < data.length then
      if st.rotated = false ∧ st.xFlipped = false ∧ st.yFlipped = false then
        Except.ok ⟨data, st.width, st.height, st.xFlipped, st.yFlipped, st.rotated⟩
      else Except.error ("Flip or rotation flags are not supported.")
    else Except.error ("Invalid dimensions.")
  else Except.error ("Invalid header.")

/-- The module constant `GAMMA = 2.0`. -/
noncomputable def GAMMA : ℝ := 2

/-- Decoding of one channel of one pixel (lines 90-93 of `hdr.py`):
`e = pow(2.0, e_byte - 128.0 + 8.0)` and `pow(byte * e, 1.0 / GAMMA) / 255.0`. -/
noncomputable def decodeChannel (raw eByte : Nat) : ℝ :=
  ((raw : ℝ) * (2 : ℝ) ^ ((eByte : ℝ) - 128 + 8)) ^ ((1 : ℝ) / GAMMA) / 255

/-- The three float values written for pixel `i`, reading raw bytes
`data[4i .. 4i+3]`.  Out-of-range reads (which the dimension assert makes
unreachable) default to byte `0`. -/
noncomputable def decodePixelFloats (bytes : List Nat) (i : Nat) : List ℝ :=
  [decodeChannel (bytes.getD (4 * i) 0) (bytes.getD (4 * i + 3) 0),
   decodeChannel (bytes.getD (4 * i + 1) 0) (bytes.getD (4 * i + 3) 0),
   decodeChannel (bytes.getD (4 * i + 2) 0) (bytes.getD (4 * i + 3) 0)]

/-- The pixel conversion loop `for i in range(npix)`, writing the float
triple of each pixel in order into the result buffer. -/
noncomputable def decodeFloats (bytes : List Nat) : Nat → List ℝ
  | 0 => []
  | n + 1 => decodeFloats bytes n ++ decodePixelFloats bytes n

/-- The `HDR` object: float buffer, dimensions and orientation flags, in the
order the fields are assigned by `HDR.__init__`. -/
structure HDR where
  data : List ℝ
  width : Int
  height : Int
  xFlipped : Bool
  yFlipped : Bool
  rotated : Bool

/-- The whole of `HDR.load_from_file` on a byte stream: header parsing and
validation, then conversion of the raw RGBE bytes to floats.  The float
buffer is preallocated as `[0.0] * (3 * width * height)` and then each of
the `(width * height)` pixels is written, which (since
`(3*w*h).toNat = 3 * (w*h).toNat` for every `w, h` reachable here) fills it
exactly; `decodeFloats` builds the same list directly. -/
noncomputable def load_from_file (stream : List Nat) : Except String HDR :=
  (parseFile stream).map (fun raw =>
    { data := decodeFloats raw.data (raw.width * raw.height).toNat
      width := raw.width
      height := raw.height
      xFlipped := raw.xFlipped
      yFlipped := raw.yFlipped
      rotated := raw.rotated })

/-- `HDR.create_black_image`: given dimensions and an all-zero float buffer
of length `3 * width * height`; the remaining fields keep their
`HDR.__init__` values. -/
noncomputable def create_black_image (width height : Int) : HDR :=
  { data := List.replicate (3 * width * height).toNat 0
    width := width
    height := height
    xFlipped := false
    yFlipped := false
    rotated := false }

/-- `HDR.is_valid`: `3 * self.width * self.height == len(self.data)`. -/
def is_valid (hdr : HDR) : Bool :=
  3 * hdr.width * hdr.height == (hdr.data.length : Int)

/-- `HDR.get_pixel`: the two bounds asserts, then the three reads
`data[i]`, `data[i+1]`, `data[i+2]` at `i = 3 * (y * width + x)` (a Python
`IndexError` on a too-short buffer is also a failure).  The asserts force
`x, y ≥ 0` and `width > 0`, so `i ≥ 0` and `Int.toNat` is exact. -/
noncomputable def get_pixel (hdr : HDR) (x y : Int) : Except String (ℝ × ℝ × ℝ) :=
  if 0 ≤ x ∧ x < hdr.width then
    if 0 ≤ y ∧ y < hdr.height then
      let i := (3 * (y * hdr.width + x)).toNat
      match hdr.data[i]?, hdr.data[i + 1]?, hdr.data[i + 2]? with
      | some a, some b, some c => Except.ok (a, b, c)
      | _, _, _ => Except.error ("IndexError")
    else Except.error ("AssertionError")
  else Except.error ("AssertionError")

/-- `HDR.set_pixel`: the two bounds asserts, then the three writes
`data[i] = pixel[0]` etc.  A write beyond the buffer raises `IndexError` in
Python; the model fails without performing a partial update, which is
observationally equivalent for every claim considered here. -/
noncomputable def set_pixel (hdr : HDR) (x y : Int) (p : ℝ × ℝ × ℝ) : Except String HDR :=
  if 0 ≤ x ∧ x < hdr.width then
    if 0 ≤ y ∧ y < hdr.height then
      let i := (3 * (y * hdr.width + x)).toNat
      if i + 2 < hdr.data.length then
        Except.ok { hdr with data := ((hdr.data.set i p.1).set (i + 1) p.2.1).set (i + 2) p.2.2 }
      else Except.error ("IndexError")
    else Except.error ("AssertionError")
  else Except.error ("AssertionError")

/-- Modelled from the spec: `clamp_int` from the `clamp` module, which is
imported by `hdr.py` but is not part of the sources provided; per spec
sections 4.2 and 6 it rounds its real argument to the nearest integer and
saturates the result into `[lo, hi]`. -/
noncomputable def clamp_int (v : ℝ) (lo hi : Int) : Int :=
  max lo (min hi (round v))

/-- Encoding of one pixel (lines 151-163 of `hdr.py`): inverse gamma per
channel, shared exponent `e = ceil(log(v, 2))` (or `0.0` when `v == 0.0`),
scale `2^(e-8)`, then the four clamped bytes. -/
noncomputable def encodePixel (r0 g0 b0 : ℝ) : List Int :=
  let r := r0 ^ GAMMA
  let g := g0 ^ GAMMA
  let b := b0 ^ GAMMA
  let v := max r (max g b)
  let e : ℝ := if v ≠ 0 then ((⌈Real.logb 2 v⌉ : Int) : ℝ) else 0
  let s := (2 : ℝ) ^ (e - 8)
  [clamp_int (r / s) 0 255, clamp_int (g / s) 0 255, clamp_int (b / s) 0 255,
   clamp_int (e + 128) 0 255]

/-- The four bytes `struct.pack("BBBB", ...)` writes for pixel `i` of the
float buffer `d` (reads default to `0.0`; unreachable because `save`
asserts `is_valid`). -/
noncomputable def savePixelBytes (d : List ℝ) (i : Nat) : List Nat :=
  (encodePixel (d.getD (3 * i) 0) (d.getD (3 * i + 1) 0) (d.getD (3 * i + 2) 0)).map Int.toNat

/-- The pixel loop of `HDR.save`: bytes of pixels `0 .. n-1` in order. -/
noncomputable def saveBody (d : List ℝ) : Nat → List Nat
  | 0 => []
  | n + 1 => saveBody d n ++ savePixelBytes d n

/-- Decimal ASCII bytes of a natural number, as produced by Python `'%d'`. -/
def natDecimalBytes (n : Nat) : List Nat :=
  if n = 0 then [48] else ((Nat.digits 10 n).reverse).map (fun d => d + 48)

/-- Decimal ASCII bytes of an integer, as produced by Python `'%d'`. -/
def intDecimalBytes (n : Int) : List Nat :=
  if n < 0 then 45 :: natDecimalBytes n.natAbs else natDecimalBytes n.toNat

/-- The text of the resolution line `-Y %d +X %d` (without the newline), as
formatted by `HDR.save`.  ASCII: `-` = 45, `Y` = 89, space = 32, `+` = 43,
`X` = 88. -/
def resCore (height width : Int) : List Nat :=
  [45, 89, 32] ++ intDecimalBytes height ++ [32, 43, 88, 32] ++ intDecimalBytes width

/-- The header text written by `HDR.save`:
`#?RADIANCE\n`, `FORMAT=32-bit_rle_rgbe\n`, a blank line, then
`-Y %d +X %d\n` filled with height and width. -/
def saveHeader (height width : Int) : List Nat :=
  (SIG ++ [NL]) ++ (FORMATCORE ++ [NL]) ++ [NL] ++ (resCore height width ++ [NL])

/-- Concatenation of `n` copies of the four-byte block `q`; the byte stream
that the pixel loops produce for a constant image. -/
def quadBlocks (q : List Nat) : Nat → List Nat
  | 0 => []
  | n + 1 => quadBlocks q n ++ q

/-- The example stream of spec section 8: signature, `FORMAT` line, blank
line, resolution line `-Y 1 +X 1`, then the four raw bytes
`[128, 128, 128, 136]`. -/
def hdrExampleStream : List Nat :=
  (SIG ++ [NL]) ++ (FORMATCORE ++ [NL]) ++ [NL] ++
    ([45, 89, 32, 49, 32, 43, 88, 32, 49] ++ [NL]) ++ [128, 128, 128, 136]

/-- A stream with a signature but no resolution line, followed by exactly
four bytes that match no header-line case. -/
def hdrMissingResStream : List Nat :=
  (SIG ++ [NL]) ++ [128, 128, 128, 136]

/-- Signature, resolution line `-Y 1 +X 1`, then a blank line, then four raw
bytes. -/
def hdrBlankAfterResStream : List Nat :=
  (SIG ++ [NL]) ++ ([45, 89, 32, 49, 32, 43, 88, 32, 49] ++ [NL]) ++ [NL] ++
    [128, 128, 128, 136]

/-- A stream whose resolution line `-Y 1 +X 1` comes before its signature
line. -/
def hdrResBeforeSigStream : List Nat :=
  ([45, 89, 32, 49, 32, 43, 88, 32, 49] ++ [NL]) ++ (SIG ++ [NL]) ++ [0, 0, 0, 0]

/-- Signature, then the line `AB 1 CD 1` (the spacing and digit layout of a
resolution line, but with letters `A`, `B`, `C`, `D` = bytes 65, 66, 67, 68
in the sign and axis positions), then four raw bytes. -/
def hdrWildcardResStream : List Nat :=
  (SIG ++ [NL]) ++ ([65, 66, 32, 49, 32, 67, 68, 32, 49] ++ [NL]) ++ [0, 0, 0, 0]

/-- `HDR.save`, modelled as producing the byte stream written to the file:
the `is_valid` and orientation-flag asserts, then the four header lines and
the packed pixel bytes.  (The assert on the `.hdr` file-name extension
concerns the target path, not the produced stream, and is not modelled.) -/
noncomputable def save (hdr : HDR) : Except String (List Nat) :=
  if is_valid hdr = true then
    if hdr.rotated = false ∧ hdr.xFlipped = false ∧ hdr.yFlipped = false then
      Except.ok (saveHeader hdr.height hdr.width ++
        saveBody hdr.data (hdr.width * hdr.height).toNat)
    else Except.error ("Flip or rotation flags are not supported.")
  else Except.error ("AssertionError")

/-! ## Helper lemmas about byte classes and list splitting -/

theorem space_not_digit {b : Nat} (h : isSpaceByte b = true) : isDigitByte b = false := by
  simp only [isSpaceByte, Bool.or_eq_true, beq_iff_eq] at h
  simp only [isDigitByte, Bool.and_eq_false_iff, decide_eq_false_iff_not, not_le]
  omega

theorem digit_byte_bounds {b : Nat} (h : isDigitByte b = true) : 48 ≤ b ∧ b ≤ 57 := by
  simpa [isDigitByte] using h

theorem digit_ne_NL {b : Nat} (h : isDigitByte b = true) : b ≠ NL := by
  have := digit_byte_bounds h
  simp only [NL]
  omega

theorem stripTrailingNL_concat (l : List Nat) : stripTrailingNL (l ++ [NL]) = l := by
  simp [stripTrailingNL, List.getLast?_concat, List.dropLast_concat]

theorem stripTrailingNL_of_ne (l : List Nat) (h : l.getLast? ≠ some NL) :
    stripTrailingNL l = l := by
  simp [stripTrailingNL, h]

theorem takeWhile_append_cons {α : Type} (p : α → Bool) (l1 : List α) (y : α) (l2 : List α)
    (h1 : ∀ x ∈ l1, p x = true) (h2 : p y = false) :
    (l1 ++ y :: l2).takeWhile p = l1 ∧ (l1 ++ y :: l2).dropWhile p = y :: l2 := by
  induction l1 with
  | nil => simp [List.takeWhile_cons, List.dropWhile_cons, h2]
  | cons a l ih =>
    have ha : p a = true := h1 a (List.mem_cons_self a l)
    have ih' := ih (fun x hx => h1 x (List.mem_cons_of_mem a hx))
    simp [List.takeWhile_cons, List.dropWhile_cons, ha, ih'.1, ih'.2]

theorem matchSizeCore_shape (a b c d w1 w2 w3 : Nat) (ds1 ds2 : List Nat)
    (ha : a ≠ NL) (hb : b ≠ NL) (hc : c ≠ NL) (hd : d ≠ NL)
    (hw1 : isSpaceByte w1 = true) (hw2 : isSpaceByte w2 = true) (hw3 : isSpaceByte w3 = true)
    (h1 : ds1 ≠ []) (h2 : ds2 ≠ [])
    (hd1 : ∀ x ∈ ds1, isDigitByte x = true) (hd2 : ∀ x ∈ ds2, isDigitByte x = true) :
    matchSizeCore (a :: b :: w1 :: (ds1 ++ w2 :: c :: d :: w3 :: ds2)) =
      some ⟨a, b, ds1, c, d, ds2⟩ := by
  have hw2' : isDigitByte w2 = false := space_not_digit hw2
  have htake := takeWhile_append_cons isDigitByte ds1 w2 (c :: d :: w3 :: ds2) hd1 hw2'
  have htake2 : ds2.takeWhile isDigitByte = ds2 := List.takeWhile_eq_self_iff.mpr hd2
  have hdrop2 : ds2.dropWhile isDigitByte = [] := List.dropWhile_eq_nil_iff.mpr hd2
  simp only [matchSizeCore, htake.1, htake.2]
  rw [if_pos ⟨ha, hb, hw1⟩]
  simp only [htake2, hdrop2]
  rw [if_pos ⟨h1, hw2, hc, hd, hw3⟩, if_pos ⟨h2, trivial⟩]

theorem matchSizeCore_not_space (a b c : Nat) (rest : List Nat) (hc : isSpaceByte c = false) :
    matchSizeCore (a :: b :: c :: rest) = none := by
  simp [matchSizeCore, hc]

theorem matchSize_not_space (a b c : Nat) (t : List Nat) (hc : isSpaceByte c = false) :
    matchSize (a :: b :: c :: t) = none := by
  unfold matchSize stripTrailingNL
  split
  · cases t with
    | nil => simp [List.dropLast, matchSizeCore]
    | cons t0 t1 =>
      simp only [List.dropLast]
      exact matchSizeCore_not_space a b c _ hc
  · exact matchSizeCore_not_space a b c t hc

theorem headerStep_blank (st : ParseState) : headerStep st [NL] = some st := rfl

theorem headerStep_sigline (st : ParseState) :
    headerStep st (SIG ++ [NL]) = some { st with header := true } := rfl

theorem headerStep_formatline (st : ParseState) :
    headerStep st (FORMATCORE ++ [NL]) = some st := rfl

theorem headerStep_commentline (st : ParseState) :
    headerStep st ([35, 32, 99] ++ [NL]) = some st := rfl

theorem headerStep_data_start (st : ParseState) (t : List Nat) :
    headerStep st (0 :: 0 :: 0 :: t) = none := by
  have hm := matchSize_not_space 0 0 0 t (by decide)
  simp [headerStep, hm, NL, SIG, IGNORED_PFX, List.isPrefixOf]

theorem headerStep_res (st : ParseState) (dh dw : List Nat) (hne1 : dh ≠ []) (hne2 : dw ≠ [])
    (hd1 : ∀ x ∈ dh, isDigitByte x = true) (hd2 : ∀ x ∈ dw, isDigitByte x = true) :
    headerStep st (([45, 89, 32] ++ dh ++ [32, 43, 88, 32] ++ dw) ++ [NL]) =
      some { st with
              rotated := false
              xFlipped := false
              yFlipped := false
              width := (parseDigits dw : Int)
              height := (parseDigits dh : Int) } := by
  have hshape : ([45, 89, 32] ++ dh ++ [32, 43, 88, 32] ++ dw) =
      45 :: 89 :: 32 :: (dh ++ 32 :: 43 :: 88 :: 32 :: dw) := by simp
  have hm : matchSize (([45, 89, 32] ++ dh ++ [32, 43, 88, 32] ++ dw) ++ [NL]) =
      some ⟨45, 89, dh, 43, 88, dw⟩ := by
    unfold matchSize
    rw [stripTrailingNL_concat, hshape]
    exact matchSizeCore_shape 45 89 43 88 32 32 32 dh dw (by decide) (by decide) (by decide)
      (by decide) (by decide) (by decide) (by decide) hne1 hne2 hd1 hd2
  have hA : (([45, 89, 32] ++ dh ++ [32, 43, 88, 32] ++ dw) ++ [NL]) ≠ [NL] := by
    simp [hshape, NL]
  have hB : ¬((([45, 89, 32] ++ dh ++ [32, 43, 88, 32] ++ dw) ++ [NL]) = SIG ∨
      (([45, 89, 32] ++ dh ++ [32, 43, 88, 32] ++ dw) ++ [NL]) = SIG ++ [NL]) := by
    simp [hshape, SIG]
  simp only [headerStep, hm]
  rw [if_neg hA, if_neg hB]
  simp [applySize]

theorem headerLoopAux_go : ∀ (core : List Nat), NL ∉ core →
    ∀ (st : ParseState) (acc rest : List Nat),
      headerLoopAux st acc (core ++ NL :: rest) =
        match headerStep st ((acc ++ core) ++ [NL]) with
        | some st' => headerLoopAux st' [] rest
        | none => (st, ((acc ++ core) ++ [NL]) ++ rest) := by
  intro core
  induction core with
  | nil =>
    intro _ st acc rest
    simp only [List.nil_append, List.append_nil]
    simp [headerLoopAux]
  | cons b core ih =>
    intro h10 st acc rest
    have hb : ¬ b = NL := fun h => h10 (h ▸ List.mem_cons_self b core)
    have h10' : NL ∉ core := fun h => h10 (List.mem_cons_of_mem b h)
    simp only [List.cons_append, headerLoopAux, if_neg hb, List.append_eq]
    rw [ih h10' st (acc ++ [b]) rest, ← List.append_cons]

theorem headerLoopAux_consume {st st' : ParseState} (core : List Nat) (h10 : NL ∉ core)
    (hstep : headerStep st (core ++ [NL]) = some st') (rest : List Nat) :
    headerLoopAux st [] ((core ++ [NL]) ++ rest) = headerLoopAux st' [] rest := by
  have h := headerLoopAux_go core h10 st [] rest
  simp only [List.nil_append] at h
  rw [show (core ++ [NL]) ++ rest = core ++ NL :: rest by simp, h, hstep]

theorem headerLoopAux_eof : ∀ (s : List Nat), NL ∉ s → ∀ (st : ParseState) (acc : List Nat),
    acc ++ s ≠ [] → headerStep st (acc ++ s) = none → headerLoopAux st acc s = (st, acc ++ s) := by
  intro s
  induction s with
  | nil =>
    intro _ st acc hne hstep
    simp only [List.append_nil] at hne hstep ⊢
    simp only [headerLoopAux, if_neg hne, hstep]
  | cons b s ih =>
    intro h10 st acc hne hstep
    have hb : ¬ b = NL := fun h => h10 (h ▸ List.mem_cons_self b s)
    have h10' : NL ∉ s := fun h => h10 (List.mem_cons_of_mem b h)
    simp only [headerLoopAux, if_neg hb]
    have harr : (acc ++ [b]) ++ s = acc ++ b :: s := by
      rw [List.append_assoc, List.singleton_append]
    have := ih h10' st (acc ++ [b]) (by simp) (by rw [harr]; exact hstep)
    rw [this, harr]

/-! ## Decimal formatting and parsing round trip -/

theorem foldl_base10 (M : List Nat) (a : Nat) :
    M.foldl (fun x d => 10 * x + d) a = a * 10 ^ M.length + Nat.ofDigits 10 M.reverse := by
  induction M generalizing a with
  | nil => simp [Nat.ofDigits]
  | cons d M ih =>
    simp only [List.foldl_cons, List.reverse_cons, List.length_cons]
    rw [ih (10 * a + d), Nat.ofDigits_append]
    simp only [Nat.ofDigits_cons, Nat.ofDigits_nil, List.length_reverse]
    ring

theorem parseDigits_natDecimalBytes (n : Nat) : parseDigits (natDecimalBytes n) = n := by
  unfold parseDigits natDecimalBytes
  by_cases h : n = 0
  · subst h; simp
  · rw [if_neg h, List.foldl_map]
    have hfun : (fun (x y : Nat) => 10 * x + (y + 48 - 48)) = (fun x y => 10 * x + y) := by
      funext x y; omega
    rw [hfun, foldl_base10, List.reverse_reverse]
    simp [Nat.ofDigits_digits]

theorem natDecimalBytes_digits (n : Nat) : ∀ b ∈ natDecimalBytes n, isDigitByte b = true := by
  intro b hb
  unfold natDecimalBytes at hb
  by_cases h : n = 0
  · subst h; simp at hb; subst hb; decide
  · rw [if_neg h] at hb
    simp only [List.mem_map, List.mem_reverse] at hb
    obtain ⟨d, hd, rfl⟩ := hb
    have : d < 10 := Nat.digits_lt_base (by norm_num) hd
    simp only [isDigitByte, Bool.and_eq_true, decide_eq_true_eq]
    omega

theorem natDecimalBytes_ne_nil (n : Nat) : natDecimalBytes n ≠ [] := by
  unfold natDecimalBytes
  by_cases h : n = 0
  · subst h; simp
  · rw [if_neg h]
    simp [Nat.digits_ne_nil_iff_ne_zero, h]

theorem natDecimalBytes_not_NL (n : Nat) : NL ∉ natDecimalBytes n := by
  intro h
  exact (digit_ne_NL (natDecimalBytes_digits n NL h)) rfl

theorem intDecimalBytes_of_pos (n : Int) (h : 0 < n) :
    intDecimalBytes n = natDecimalBytes n.toNat := by
  unfold intDecimalBytes
  rw [if_neg (by omega)]

/-! ## Parsing a stream made of the written header followed by data -/

theorem parseFile_saveHeader (w h : Int) (hw : 0 < w) (hh : 0 < h) (data : List Nat)
    (h10 : NL ∉ data) (hne : data ≠ []) (hstep : ∀ st, headerStep st data = none)
    (hlen : (data.length : Int) = 4 * w * h) :
    parseFile (saveHeader h w ++ data) = Except.ok ⟨data, w, h, false, false, false⟩ := by
  have h10res : NL ∉ ([45, 89, 32] ++ natDecimalBytes h.toNat ++ [32, 43, 88, 32] ++
      natDecimalBytes w.toNat) := by
    intro hm
    simp only [List.mem_append] at hm
    rcases hm with ((hm | hm) | hm) | hm
    · revert hm; decide
    · exact natDecimalBytes_not_NL _ hm
    · revert hm; decide
    · exact natDecimalBytes_not_NL _ hm
  have hloop : headerLoopAux initState [] (saveHeader h w ++ data) =
      (⟨w, h, false, false, false, true⟩, data) := by
    unfold saveHeader resCore
    rw [intDecimalBytes_of_pos h hh, intDecimalBytes_of_pos w hw]
    rw [show ((SIG ++ [NL]) ++ (FORMATCORE ++ [NL]) ++ [NL] ++
          (([45, 89, 32] ++ natDecimalBytes h.toNat ++ [32, 43, 88, 32] ++
            natDecimalBytes w.toNat) ++ [NL])) ++ data
        = (SIG ++ [NL]) ++ ((FORMATCORE ++ [NL]) ++ (([] ++ [NL]) ++
          ((([45, 89, 32] ++ natDecimalBytes h.toNat ++ [32, 43, 88, 32] ++
            natDecimalBytes w.toNat) ++ [NL]) ++ data))) by simp]
    rw [headerLoopAux_consume SIG (by decide) (headerStep_sigline initState) _]
    rw [headerLoopAux_consume FORMATCORE (by decide) (headerStep_formatline _) _]
    rw [headerLoopAux_consume [] (by simp) (headerStep_blank _) _]
    rw [headerLoopAux_consume _ h10res
      (headerStep_res _ (natDecimalBytes h.toNat) (natDecimalBytes w.toNat)
        (natDecimalBytes_ne_nil _) (natDecimalBytes_ne_nil _)
        (natDecimalBytes_digits _) (natDecimalBytes_digits _)) data]
    rw [headerLoopAux_eof data h10 _ [] (by simpa using hne) (hstep _)]
    have hw' : ((parseDigits (natDecimalBytes w.toNat) : Int)) = w := by
      rw [parseDigits_natDecimalBytes, Int.toNat_of_nonneg (by omega)]
    have hh' : ((parseDigits (natDecimalBytes h.toNat) : Int)) = h := by
      rw [parseDigits_natDecimalBytes, Int.toNat_of_nonneg (by omega)]
    simp only [List.nil_append, hw', hh']
  unfold parseFile
  rw [hloop]
  simp [hlen, List.length_pos, hne]

/-! ## Pixel transform evaluations -/

theorem decodeChannel_zero (eByte : Nat) : decodeChannel 0 eByte = 0 := by
  unfold decodeChannel GAMMA
  rw [Nat.cast_zero, zero_mul, Real.zero_rpow (by norm_num), zero_div]

theorem decodeChannel_128_136 : decodeChannel 128 136 = Real.sqrt 8388608 / 255 := by
  unfold decodeChannel GAMMA
  have he : ((136 : Nat) : ℝ) - 128 + 8 = ((16 : Nat) : ℝ) := by norm_num
  rw [he, Real.rpow_natCast]
  have h1 : ((128 : Nat) : ℝ) * (2 : ℝ) ^ (16 : Nat) = 8388608 := by norm_num
  rw [h1, Real.sqrt_eq_rpow]

theorem decodeChannel_128_136_bounds :
    (1135 : ℝ) / 100 < decodeChannel 128 136 ∧ decodeChannel 128 136 < (1136 : ℝ) / 100 := by
  rw [decodeChannel_128_136]
  constructor
  · rw [lt_div_iff₀ (by norm_num : (0:ℝ) < 255)]
    rw [show (1135 : ℝ) / 100 * 255 = 57885 / 20 by norm_num]
    rw [Real.lt_sqrt (by norm_num)]
    norm_num
  · rw [div_lt_iff₀ (by norm_num : (0:ℝ) < 255)]
    rw [show (1136 : ℝ) / 100 * 255 = 14484 / 5 by norm_num]
    rw [Real.sqrt_lt' (by norm_num)]
    norm_num

theorem clamp_int_zero : clamp_int 0 0 255 = 0 := by
  unfold clamp_int
  norm_num

theorem clamp_int_128 : clamp_int 128 0 255 = 128 := by
  unfold clamp_int
  norm_num

theorem encodePixel_zero : encodePixel 0 0 0 = [0, 0, 0, 128] := by
  unfold encodePixel GAMMA
  have hz : (0 : ℝ) ^ (2 : ℝ) = 0 := Real.zero_rpow (by norm_num)
  simp only [hz, max_self, ne_eq, not_true_eq_false, if_neg, if_false, ite_false,
    zero_div, zero_add]
  rw [clamp_int_zero, clamp_int_128]

/-! ## The constant-block pixel streams of black images -/

theorem getD_replicate_zero (Z k : Nat) : (List.replicate Z (0:ℝ)).getD k 0 = 0 := by
  rw [List.getD_eq_getElem?_getD, List.getElem?_replicate]
  split <;> rfl

theorem quadBlocks_length (q : List Nat) (hq : q.length = 4) (n : Nat) :
    (quadBlocks q n).length = 4 * n := by
  induction n with
  | zero => rfl
  | succ n ih =>
    simp only [quadBlocks, List.length_append, ih, hq]
    omega

theorem mem_quadBlocks {q : List Nat} {x : Nat} {n : Nat} (h : x ∈ quadBlocks q n) : x ∈ q := by
  induction n with
  | zero => simp [quadBlocks] at h
  | succ n ih =>
    simp only [quadBlocks, List.mem_append] at h
    rcases h with h | h
    · exact ih h
    · exact h

theorem quadBlocks_head (n : Nat) (hn : 0 < n) :
    ∃ t, quadBlocks [0, 0, 0, 128] n = 0 :: 0 :: 0 :: t := by
  induction n with
  | zero => omega
  | succ n ih =>
    by_cases h : n = 0
    · subst h
      exact ⟨[128], rfl⟩
    · obtain ⟨t, ht⟩ := ih (by omega)
      refine ⟨t ++ [0, 0, 0, 128], ?_⟩
      simp [quadBlocks, ht]

theorem getD_quadBlocks (q : List Nat) (hq : q.length = 4) (j : Nat) (hj : j < 4) :
    ∀ (n i : Nat), i < n → (quadBlocks q n).getD (4 * i + j) 0 = q.getD j 0 := by
  intro n
  induction n with
  | zero => intro i hi; omega
  | succ n ih =>
    intro i hi
    simp only [quadBlocks]
    by_cases h : i < n
    · rw [List.getD_append _ _ _ _ (by rw [quadBlocks_length q hq]; omega)]
      exact ih i h
    · have hin : i = n := by omega
      subst hin
      rw [List.getD_append_right _ _ _ _ (by rw [quadBlocks_length q hq]; omega)]
      rw [quadBlocks_length q hq]
      congr 1
      omega

theorem saveBody_replicate (Z : Nat) : ∀ m,
    saveBody (List.replicate Z (0:ℝ)) m = quadBlocks [0, 0, 0, 128] m := by
  intro m
  induction m with
  | zero => rfl
  | succ m ih =>
    simp only [saveBody, quadBlocks, ih]
    congr 1
    unfold savePixelBytes
    rw [getD_replicate_zero, getD_replicate_zero, getD_replicate_zero, encodePixel_zero]
    rfl

theorem decodeFloats_quadBlocks (n : Nat) : ∀ m, m ≤ n →
    decodeFloats (quadBlocks [0, 0, 0, 128] n) m = List.replicate (3 * m) (0:ℝ) := by
  intro m
  induction m with
  | zero => intro _; rfl
  | succ m ih =>
    intro hm
    simp only [decodeFloats, ih (by omega)]
    unfold decodePixelFloats
    have h0 : (quadBlocks [0, 0, 0, 128] n).getD (4 * m) 0 = 0 := by
      have := getD_quadBlocks [0, 0, 0, 128] (by decide) 0 (by decide) n m (by omega)
      simpa using this
    have h1 : (quadBlocks [0, 0, 0, 128] n).getD (4 * m + 1) 0 = 0 := by
      simpa using getD_quadBlocks [0, 0, 0, 128] (by decide) 1 (by decide) n m (by omega)
    have h2 : (quadBlocks [0, 0, 0, 128] n).getD (4 * m + 2) 0 = 0 := by
      simpa using getD_quadBlocks [0, 0, 0, 128] (by decide) 2 (by decide) n m (by omega)
    have h3 : (quadBlocks [0, 0, 0, 128] n).getD (4 * m + 3) 0 = 128 := by
      simpa using getD_quadBlocks [0, 0, 0, 128] (by decide) 3 (by decide) n m (by omega)
    rw [h0, h1, h2, h3, decodeChannel_zero]
    rw [show 3 * (m + 1) = 3 * m + 3 by ring, List.replicate_add]
    simp [List.replicate]

theorem save_create_black (w h : Int) (hw : 0 < w) (hh : 0 < h) :
    save (create_black_image w h) =
      Except.ok (saveHeader h w ++ quadBlocks [0, 0, 0, 128] (w * h).toNat) := by
  have hv : is_valid (create_black_image w h) = true := by
    unfold is_valid create_black_image
    simp only [List.length_replicate, beq_iff_eq]
    rw [Int.toNat_of_nonneg (mul_nonneg (mul_nonneg (by norm_num) hw.le) hh.le)]
  unfold save
  rw [if_pos hv, if_pos ⟨rfl, rfl, rfl⟩]
  unfold create_black_image
  rw [saveBody_replicate]

/-! ## Assembling parse results -/

theorem parseFile_of_loop (stream : List Nat) (w h : Int) (data : List Nat)
    (hloop : headerLoopAux initState [] stream = (⟨w, h, false, false, false, true⟩, data))
    (hlen : (data.length : Int) = 4 * w * h) (hne : data ≠ []) :
    parseFile stream = Except.ok ⟨data, w, h, false, false, false⟩ := by
  unfold parseFile
  rw [hloop]
  simp [hlen, List.length_pos, hne]

theorem parseFile_no_header (stream : List Nat) (st : ParseState) (data : List Nat)
    (hloop : headerLoopAux initState [] stream = (st, data)) (hh : st.header = false) :
    parseFile stream = Except.error ("Invalid header.") := by
  unfold parseFile
  rw [hloop]
  simp [hh]

theorem headerStep_resCore (st : ParseState) (w h : Int) (hw : 0 < w) (hh : 0 < h) :
    headerStep st (resCore h w ++ [NL]) =
      some { st with
              rotated := false
              xFlipped := false
              yFlipped := false
              width := w
              height := h } := by
  have hw' : ((parseDigits (natDecimalBytes w.toNat) : Int)) = w := by
    rw [parseDigits_natDecimalBytes, Int.toNat_of_nonneg hw.le]
  have hh' : ((parseDigits (natDecimalBytes h.toNat) : Int)) = h := by
    rw [parseDigits_natDecimalBytes, Int.toNat_of_nonneg hh.le]
  unfold resCore
  rw [intDecimalBytes_of_pos h hh, intDecimalBytes_of_pos w hw]
  rw [headerStep_res st _ _ (natDecimalBytes_ne_nil _) (natDecimalBytes_ne_nil _)
    (natDecimalBytes_digits _) (natDecimalBytes_digits _)]
  rw [hw', hh']

theorem NL_not_mem_resCore (w h : Int) (hw : 0 < w) (hh : 0 < h) : NL ∉ resCore h w := by
  unfold resCore
  rw [intDecimalBytes_of_pos h hh, intDecimalBytes_of_pos w hw]
  intro hm
  simp only [List.mem_append] at hm
  rcases hm with ((hm | hm) | hm) | hm
  · revert hm; decide
  · exact natDecimalBytes_not_NL _ hm
  · revert hm; decide
  · exact natDecimalBytes_not_NL _ hm

theorem NL_not_mem_replicate_zero (k : Nat) : NL ∉ List.replicate k 0 := by
  intro h
  have := List.eq_of_mem_replicate h
  simp [NL] at this

theorem headerStep_replicate_zeros (st : ParseState) (k : Nat) (hk : 4 ≤ k) :
    headerStep st (List.replicate k 0) = none := by
  rw [show k = 3 + (k - 3) by omega, List.replicate_add]
  simp only [List.replicate, List.cons_append, List.nil_append]
  exact headerStep_data_start st _

theorem replicate_zeros_len (w h : Int) (hw : 0 < w) (hh : 0 < h) :
    (((List.replicate (4 * (w * h).toNat) (0:Nat)).length : Nat) : Int) = 4 * w * h := by
  rw [List.length_replicate]
  push_cast
  rw [Int.toNat_of_nonneg (mul_pos hw hh).le]
  ring

theorem replicate_zeros_ne_nil (w h : Int) (hw : 0 < w) (hh : 0 < h) :
    List.replicate (4 * (w * h).toNat) (0:Nat) ≠ [] := by
  have hpos : 0 < w * h := mul_pos hw hh
  have : 0 < (w * h).toNat := by omega
  simp only [ne_eq, List.replicate_eq_nil_iff]
  omega

/-! ## Evaluation of the decoder on the concrete example streams -/

theorem load_hdrExampleStream :
    load_from_file hdrExampleStream = Except.ok
      { data := [decodeChannel 128 136, decodeChannel 128 136, decodeChannel 128 136]
        width := 1
        height := 1
        xFlipped := false
        yFlipped := false
        rotated := false } := rfl

/-- C1 (counterexample): the claim states that the example stream
`#?RADIANCE\nFORMAT=32-bit_rle_rgbe\n\n-Y 1 +X 1\n` + `[128,128,128,136]`
decodes to a pixel approximately `(0.5, 0.5, 0.5)`.  It does not: decoding
succeeds, but every channel equals `sqrt(128 * 2^16)/255 ≈ 11.358`, which is
not within `1` (let alone `1e-6`) of `0.5`. -/
theorem hdr_C1_counterexample :
    ¬ ∃ img, load_from_file hdrExampleStream = Except.ok img ∧
        ∀ c ∈ img.data, |c - 1 / 2| ≤ 1 := by
  rintro ⟨img, hok, hall⟩
  rw [load_hdrExampleStream] at hok
  injection hok with h
  subst h
  have hmem := hall (decodeChannel 128 136) (by simp)
  rw [abs_le] at hmem
  have hb := decodeChannel_128_136_bounds.1
  linarith [hmem.2]

/-- C1 (amended): the example stream decodes successfully to a 1x1 image
each of whose channels equals the section 4.2 formula value
`(128 * 2^(136-128+8))^(1/2) / 255 = sqrt(8388608)/255 ≈ 11.358`
(not `0.5`); the formula is matched exactly, and the value lies in
`(11.35, 11.36)`. -/
theorem hdr_C1_amended :
    load_from_file hdrExampleStream = Except.ok
      { data := [decodeChannel 128 136, decodeChannel 128 136, decodeChannel 128 136]
        width := 1
        height := 1
        xFlipped := false
        yFlipped := false
        rotated := false } ∧
    decodeChannel 128 136 = Real.sqrt 8388608 / 255 ∧
    (1135 : ℝ) / 100 < decodeChannel 128 136 ∧ decodeChannel 128 136 < (1136 : ℝ) / 100 :=
  ⟨load_hdrExampleStream, decodeChannel_128_136,
    decodeChannel_128_136_bounds.1, decodeChannel_128_136_bounds.2⟩

/-- C2: encoding the image of `create_black_image w h` (any positive `w`, `h`)
and decoding the resulting byte stream succeeds and yields an image of width
`w`, height `h`, and a buffer of `3*w*h` floats, all exactly `0.0`. -/
theorem hdr_C2_roundtrip (w h : Int) (hw : 0 < w) (hh : 0 < h) :
    ∃ out, save (create_black_image w h) = Except.ok out ∧
      load_from_file out = Except.ok
        { data := List.replicate (3 * w * h).toNat 0
          width := w
          height := h
          xFlipped := false
          yFlipped := false
          rotated := false } := by
  have hpos : 0 < w * h := mul_pos hw hh
  have hn : 0 < (w * h).toNat := by omega
  refine ⟨_, save_create_black w h hw hh, ?_⟩
  unfold load_from_file
  have hparse := parseFile_saveHeader w h hw hh (quadBlocks [0, 0, 0, 128] (w * h).toNat)
    (fun hm => by have := mem_quadBlocks hm; revert this; decide)
    (by
      intro hnil
      have hlen := quadBlocks_length [0, 0, 0, 128] (by decide) (w * h).toNat
      rw [hnil] at hlen
      simp at hlen
      omega)
    (fun st => by
      obtain ⟨t, ht⟩ := quadBlocks_head (w * h).toNat hn
      rw [ht]
      exact headerStep_data_start st t)
    (by
      rw [quadBlocks_length _ (by decide)]
      push_cast
      rw [Int.toNat_of_nonneg hpos.le]
      ring)
  rw [hparse]
  have hdec := decodeFloats_quadBlocks (w * h).toNat (w * h).toNat le_rfl
  have h3 : 3 * (w * h).toNat = (3 * w * h).toNat := by
    rw [mul_assoc]
    omega
  simp [Except.map, hdec, h3]

/-- C3 (code bug): on the stream `#?RADIANCE\n` followed by the four bytes
`[128,128,128,136]` — which contains no line matching the resolution-line
pattern — decode does not fail: the sentinel values `width = height = -1`
from `HDR.__init__` make the dimension check `4 * (-1) * (-1) == 4` succeed,
and a one-pixel image with `width = height = -1` is returned. -/
theorem hdr_C3_missing_resolution_accepted :
    load_from_file hdrMissingResStream = Except.ok
      { data := [decodeChannel 128 136, decodeChannel 128 136, decodeChannel 128 136]
        width := -1
        height := -1
        xFlipped := false
        yFlipped := false
        rotated := false } := rfl

/-- C4 (counterexample): the claim states that after the resolution line every
byte is treated as raw pixel data, so on signature + `-Y 1 +X 1` + blank line
+ 4 bytes the pixel data would be 5 bytes and decoding would fail the
dimension check.  Instead the blank line is consumed as a header line and
decoding succeeds with exactly the 4 final bytes as data. -/
theorem hdr_C4_counterexample :
    parseFile hdrBlankAfterResStream =
      Except.ok ⟨[128, 128, 128, 136], 1, 1, false, false, false⟩ := rfl

/-- C4 (amended): after the resolution line the parser keeps consuming
header-type lines — here a blank line and a `# ` comment line — and the pixel
data only starts at the first line matching no header case. -/
theorem hdr_C4_amended (w h : Int) (hw : 0 < w) (hh : 0 < h) :
    parseFile ((SIG ++ [NL]) ++ ((resCore h w ++ [NL]) ++ (([] ++ [NL]) ++
        (([35, 32, 99] ++ [NL]) ++ List.replicate (4 * (w * h).toNat) 0)))) =
      Except.ok ⟨List.replicate (4 * (w * h).toNat) 0, w, h, false, false, false⟩ := by
  have hpos : 0 < w * h := mul_pos hw hh
  have hn4 : 4 ≤ 4 * (w * h).toNat := by omega
  apply parseFile_of_loop
  · rw [headerLoopAux_consume SIG (by decide) (headerStep_sigline initState) _]
    rw [headerLoopAux_consume _ (NL_not_mem_resCore w h hw hh)
      (headerStep_resCore _ w h hw hh) _]
    rw [headerLoopAux_consume [] (by simp) (headerStep_blank _) _]
    rw [headerLoopAux_consume [35, 32, 99] (by decide) (headerStep_commentline _) _]
    rw [headerLoopAux_eof _ (NL_not_mem_replicate_zero _) _ []
      (by simpa using replicate_zeros_ne_nil w h hw hh)
      (headerStep_replicate_zeros _ _ hn4)]
    rw [List.nil_append]
  · exact replicate_zeros_len w h hw hh
  · exact replicate_zeros_ne_nil w h hw hh

/-- C8: the all-zero RGBE pixel `[0,0,0,0]` decodes to exactly
`(0.0, 0.0, 0.0)` (in the reals, `0^(1/2) = 0`: no NaN and no division), and
encoding the float pixel `(0.0, 0.0, 0.0)` takes the `v == 0.0` special case
(no logarithm is evaluated), emitting the bytes `[0, 0, 0, 0 + 128]`. -/
theorem hdr_C8_zero_pixel :
    decodeFloats [0, 0, 0, 0] 1 = [0, 0, 0] ∧ encodePixel 0 0 0 = [0, 0, 0, 128] := by
  refine ⟨?_, encodePixel_zero⟩
  show [] ++ decodePixelFloats [0, 0, 0, 0] 0 = [0, 0, 0]
  simp [decodePixelFloats, decodeChannel_zero]

/-- C5 (counterexample): the claim says a stream containing a valid resolution
line before its signature is rejected.  It is not: the code only checks at
end of header parsing that a signature was seen somewhere, so
`-Y 1 +X 1\n#?RADIANCE\n` + 4 data bytes decodes successfully. -/
theorem hdr_C5_counterexample :
    parseFile hdrResBeforeSigStream =
      Except.ok ⟨[0, 0, 0, 0], 1, 1, false, false, false⟩ := rfl

/-- C5 (amended): decode fails with `Invalid header.` exactly when no header
line matched the signature; the signature may appear anywhere among the
header lines — in particular after the resolution line — and the first
non-blank line need not be the signature. -/
theorem hdr_C5_amended (w h : Int) (hw : 0 < w) (hh : 0 < h) :
    parseFile ((resCore h w ++ [NL]) ++ ((SIG ++ [NL]) ++
        List.replicate (4 * (w * h).toNat) 0)) =
      Except.ok ⟨List.replicate (4 * (w * h).toNat) 0, w, h, false, false, false⟩ ∧
    parseFile ((resCore h w ++ [NL]) ++ List.replicate (4 * (w * h).toNat) 0) =
      Except.error ("Invalid header.") := by
  have hpos : 0 < w * h := mul_pos hw hh
  have hn4 : 4 ≤ 4 * (w * h).toNat := by omega
  constructor
  · apply parseFile_of_loop
    · rw [headerLoopAux_consume _ (NL_not_mem_resCore w h hw hh)
        (headerStep_resCore _ w h hw hh) _]
      rw [headerLoopAux_consume SIG (by decide) (headerStep_sigline _) _]
      rw [headerLoopAux_eof _ (NL_not_mem_replicate_zero _) _ []
        (by simpa using replicate_zeros_ne_nil w h hw hh)
        (headerStep_replicate_zeros _ _ hn4)]
      rw [List.nil_append]
    · exact replicate_zeros_len w h hw hh
    · exact replicate_zeros_ne_nil w h hw hh
  · apply parseFile_no_header _
      { initState with
          rotated := false
          xFlipped := false
          yFlipped := false
          width := w
          height := h }
      (List.replicate (4 * (w * h).toNat) 0)
    · rw [headerLoopAux_consume _ (NL_not_mem_resCore w h hw hh)
        (headerStep_resCore _ w h hw hh) _]
      rw [headerLoopAux_eof _ (NL_not_mem_replicate_zero _) _ []
        (by simpa using replicate_zeros_ne_nil w h hw hh)
        (headerStep_replicate_zeros _ _ hn4)]
      rw [List.nil_append]
    · rfl

/-- C6 (counterexample): the claim says a line with the resolution-line
spacing and digit layout but other characters in the letter/sign positions is
not treated as a resolution line.  It is: `AB 1 CD 1` matches the code's
regex `^(.)(.)\s(\d+)\s(.)(.)\s(\d+)$` (whose `(.)` accepts any non-newline
byte), and a stream using it as its resolution line decodes successfully
with width 1 and height 1 taken from that line. -/
theorem hdr_C6_counterexample :
    matchSize [65, 66, 32, 49, 32, 67, 68, 32, 49, 10] = some ⟨65, 66, [49], 67, 68, [49]⟩ ∧
    parseFile hdrWildcardResStream =
      Except.ok ⟨[0, 0, 0, 0], 1, 1, false, false, false⟩ :=
  ⟨rfl, rfl⟩

/-- C6 (amended): a header line is accepted as the resolution line exactly
when it has the shape `<any><any><space><digits><space><any><any><space><digits>`
where `<any>` is any byte other than newline — the axis and sign positions
are not restricted to `X`/`Y` and `+`/`-`. -/
theorem hdr_C6_amended (a b c d w1 w2 w3 : Nat) (ds1 ds2 : List Nat)
    (ha : a ≠ NL) (hb : b ≠ NL) (hc : c ≠ NL) (hd : d ≠ NL)
    (hw1 : isSpaceByte w1 = true) (hw2 : isSpaceByte w2 = true) (hw3 : isSpaceByte w3 = true)
    (h1 : ds1 ≠ []) (h2 : ds2 ≠ [])
    (hd1 : ∀ x ∈ ds1, isDigitByte x = true) (hd2 : ∀ x ∈ ds2, isDigitByte x = true) :
    matchSize ((a :: b :: w1 :: (ds1 ++ w2 :: c :: d :: w3 :: ds2)) ++ [NL]) =
      some ⟨a, b, ds1, c, d, ds2⟩ := by
  unfold matchSize
  rw [stripTrailingNL_concat]
  exact matchSizeCore_shape a b c d w1 w2 w3 ds1 ds2 ha hb hc hd hw1 hw2 hw3 h1 h2 hd1 hd2

/-- Witness for C6 (amended), instantiated at the line `AB 1 CD 1\n`. -/
theorem hdr_C6_amended_witness :
    matchSize ((65 :: 66 :: 32 :: ([49] ++ 32 :: 67 :: 68 :: 32 :: [49])) ++ [NL]) =
      some ⟨65, 66, [49], 67, 68, [49]⟩ :=
  hdr_C6_amended 65 66 67 68 32 32 32 [49] [49] (by decide) (by decide) (by decide)
    (by decide) (by decide) (by decide) (by decide) (by decide) (by decide)
    (by decide) (by decide)

theorem intDecimalBytes_one : intDecimalBytes 1 = [49] := by
  rw [intDecimalBytes_of_pos 1 (by norm_num)]
  unfold natDecimalBytes
  rw [if_neg (by norm_num)]
  simp

/-- C7 (counterexample): the claim spells the second emitted header line as
`FORMATE=32-bit_rle_rgbe`; the code writes `FORMAT=32-bit_rle_rgbe`
(no `E` before `=`), so the stream written for the 1x1 black image differs
from the claimed one. -/
theorem hdr_C7_counterexample :
    save (create_black_image 1 1) = Except.ok
      ([35, 63, 82, 65, 68, 73, 65, 78, 67, 69, 10] ++
       [70, 79, 82, 77, 65, 84, 61, 51, 50, 45, 98, 105, 116, 95, 114, 108, 101,
        95, 114, 103, 98, 101, 10] ++
       [10] ++ [45, 89, 32, 49, 32, 43, 88, 32, 49, 10] ++ [0, 0, 0, 128]) ∧
    ([35, 63, 82, 65, 68, 73, 65, 78, 67, 69, 10] ++
     [70, 79, 82, 77, 65, 84, 61, 51, 50, 45, 98, 105, 116, 95, 114, 108, 101,
      95, 114, 103, 98, 101, 10] ++
     [10] ++ [45, 89, 32, 49, 32, 43, 88, 32, 49, 10] ++ [0, 0, 0, 128]) ≠
    ([35, 63, 82, 65, 68, 73, 65, 78, 67, 69, 10] ++
     [70, 79, 82, 77, 65, 84, 69, 61, 51, 50, 45, 98, 105, 116, 95, 114, 108, 101,
      95, 114, 103, 98, 101, 10] ++
     [10] ++ [45, 89, 32, 49, 32, 43, 88, 32, 49, 10] ++ [0, 0, 0, 128]) := by
  constructor
  · rw [save_create_black 1 1 (by norm_num) (by norm_num)]
    congr 1
    simp only [saveHeader, resCore, intDecimalBytes_one]
    decide
  · decide

/-- C7 (amended): for every valid, unrotated, unflipped image, the emitted
stream is exactly the three header lines `#?RADIANCE`,
`FORMAT=32-bit_rle_rgbe` (not `FORMATE=...`), and a blank line, followed by
the resolution line `-Y <height> +X <width>` and then the pixel bytes — no
other optional header key is emitted. -/
theorem hdr_C7_amended (img : HDR) (hv : is_valid img = true)
    (hfl : img.rotated = false ∧ img.xFlipped = false ∧ img.yFlipped = false) :
    save img = Except.ok ((SIG ++ [NL]) ++ (FORMATCORE ++ [NL]) ++ [NL] ++
      (resCore img.height img.width ++ [NL]) ++
      saveBody img.data (img.width * img.height).toNat) := by
  unfold save
  rw [if_pos hv, if_pos hfl]
  rfl

/-- Witness for C7 (amended) at the 2x3 black image. -/
theorem hdr_C7_amended_witness :
    save (create_black_image 2 3) = Except.ok ((SIG ++ [NL]) ++ (FORMATCORE ++ [NL]) ++ [NL] ++
      (resCore (create_black_image 2 3).height (create_black_image 2 3).width ++ [NL]) ++
      saveBody (create_black_image 2 3).data
        ((create_black_image 2 3).width * (create_black_image 2 3).height).toNat) :=
  hdr_C7_amended (create_black_image 2 3) rfl ⟨rfl, rfl, rfl⟩

/-- C9: for every image satisfying the buffer-length invariant (`is_valid`),
`get_pixel` and `set_pixel` fail (with an assert-style error) whenever
`x < 0`, `x >= width`, `y < 0` or `y >= height`, and succeed for every pair
with `0 <= x < width` and `0 <= y < height`. -/
theorem hdr_C9_bounds (img : HDR) (x y : Int) (p : ℝ × ℝ × ℝ) (hv : is_valid img = true) :
    ((x < 0 ∨ img.width ≤ x ∨ y < 0 ∨ img.height ≤ y) →
      (∃ e, get_pixel img x y = Except.error e) ∧
      (∃ e, set_pixel img x y p = Except.error e)) ∧
    ((0 ≤ x ∧ x < img.width ∧ 0 ≤ y ∧ y < img.height) →
      (∃ v, get_pixel img x y = Except.ok v) ∧
      (∃ img2, set_pixel img x y p = Except.ok img2)) := by
  have hlen : 3 * img.width * img.height = (img.data.length : Int) := by
    simpa only [is_valid, beq_iff_eq] using hv
  constructor
  · intro hout
    by_cases hx : 0 ≤ x ∧ x < img.width
    · by_cases hy : 0 ≤ y ∧ y < img.height
      · exfalso
        rcases hout with h | h | h | h <;> omega
      · refine ⟨⟨"AssertionError", ?_⟩, ⟨"AssertionError", ?_⟩⟩
        · unfold get_pixel
          rw [if_pos hx, if_neg hy]
        · unfold set_pixel
          rw [if_pos hx, if_neg hy]
    · refine ⟨⟨"AssertionError", ?_⟩, ⟨"AssertionError", ?_⟩⟩
      · unfold get_pixel
        rw [if_neg hx]
      · unfold set_pixel
        rw [if_neg hx]
  · rintro ⟨hx0, hxw, hy0, hyh⟩
    have hw0 : 0 < img.width := lt_of_le_of_lt hx0 hxw
    have hidx : 0 ≤ 3 * (y * img.width + x) := by
      have : 0 ≤ y * img.width := mul_nonneg hy0 hw0.le
      omega
    have hbound : 3 * (y * img.width + x) + 2 < 3 * img.width * img.height := by
      have h2 : y * img.width ≤ (img.height - 1) * img.width :=
        mul_le_mul_of_nonneg_right (by omega) hw0.le
      nlinarith
    have hlt : (3 * (y * img.width + x)).toNat + 2 < img.data.length := by omega
    constructor
    · obtain ⟨a, ha⟩ : ∃ a, img.data[(3 * (y * img.width + x)).toNat]? = some a :=
        ⟨_, List.getElem?_eq_getElem (by omega)⟩
      obtain ⟨b, hb⟩ : ∃ b, img.data[(3 * (y * img.width + x)).toNat + 1]? = some b :=
        ⟨_, List.getElem?_eq_getElem (by omega)⟩
      obtain ⟨c, hc⟩ : ∃ c, img.data[(3 * (y * img.width + x)).toNat + 2]? = some c :=
        ⟨_, List.getElem?_eq_getElem hlt⟩
      refine ⟨(a, b, c), ?_⟩
      unfold get_pixel
      rw [if_pos ⟨hx0, hxw⟩, if_pos ⟨hy0, hyh⟩]
      simp only [ha, hb, hc]
    · refine ⟨{ img with
        data := ((img.data.set (3 * (y * img.width + x)).toNat p.1).set
          ((3 * (y * img.width + x)).toNat + 1) p.2.1).set
          ((3 * (y * img.width + x)).toNat + 2) p.2.2 }, ?_⟩
      unfold set_pixel
      rw [if_pos ⟨hx0, hxw⟩, if_pos ⟨hy0, hyh⟩]
      simp only []
      rw [if_pos hlt]

/-- Witness for C9 at the 2x2 black image: out of range at `x = 2`, in range
at `(1, 1)`. -/
theorem hdr_C9_bounds_witness :
    ((∃ e, get_pixel (create_black_image 2 2) 2 0 = Except.error e) ∧
     (∃ e, set_pixel (create_black_image 2 2) 2 0 (1, 2, 3) = Except.error e)) ∧
    ((∃ v, get_pixel (create_black_image 2 2) 1 1 = Except.ok v) ∧
     (∃ img2, set_pixel (create_black_image 2 2) 1 1 (1, 2, 3) = Except.ok img2)) := by
  constructor
  · exact (hdr_C9_bounds (create_black_image 2 2) 2 0 (1, 2, 3) rfl).1 (by right; left; decide)
  · exact (hdr_C9_bounds (create_black_image 2 2) 1 1 (1, 2, 3) rfl).2 (by decide)

/-- C10: on a valid image, for in-range `(x, y)`, `set_pixel` writes exactly
the three buffer slots `3*(y*width+x)`, `+1`, `+2` with the components of
`p`, leaves every other buffer entry and the width, height and orientation
flags unchanged, and a subsequent `get_pixel x y` returns exactly `p`. -/
theorem hdr_C10_set_get (img : HDR) (x y : Int) (p : ℝ × ℝ × ℝ) (hv : is_valid img = true)
    (hx : 0 ≤ x ∧ x < img.width) (hy : 0 ≤ y ∧ y < img.height) :
    ∃ img2, set_pixel img x y p = Except.ok img2 ∧
      img2.width = img.width ∧ img2.height = img.height ∧
      img2.xFlipped = img.xFlipped ∧ img2.yFlipped = img.yFlipped ∧
      img2.rotated = img.rotated ∧
      img2.data.length = img.data.length ∧
      img2.data[(3 * (y * img.width + x)).toNat]? = some p.1 ∧
      img2.data[(3 * (y * img.width + x)).toNat + 1]? = some p.2.1 ∧
      img2.data[(3 * (y * img.width + x)).toNat + 2]? = some p.2.2 ∧
      (∀ k, k ≠ (3 * (y * img.width + x)).toNat →
        k ≠ (3 * (y * img.width + x)).toNat + 1 →
        k ≠ (3 * (y * img.width + x)).toNat + 2 →
        img2.data[k]? = img.data[k]?) ∧
      get_pixel img2 x y = Except.ok p := by
  obtain ⟨hx0, hxw⟩ := hx
  obtain ⟨hy0, hyh⟩ := hy
  obtain ⟨p1, p2, p3⟩ := p
  have hlen : 3 * img.width * img.height = (img.data.length : Int) := by
    simpa only [is_valid, beq_iff_eq] using hv
  have hw0 : 0 < img.width := lt_of_le_of_lt hx0 hxw
  have hidx : 0 ≤ 3 * (y * img.width + x) := by
    have : 0 ≤ y * img.width := mul_nonneg hy0 hw0.le
    omega
  have hbound : 3 * (y * img.width + x) + 2 < 3 * img.width * img.height := by
    have h2 : y * img.width ≤ (img.height - 1) * img.width :=
      mul_le_mul_of_nonneg_right (by omega) hw0.le
    nlinarith
  have hlt : (3 * (y * img.width + x)).toNat + 2 < img.data.length := by omega
  set i := (3 * (y * img.width + x)).toNat with hi
  have hset : set_pixel img x y (p1, p2, p3) = Except.ok { img with
      data := ((img.data.set i p1).set (i + 1) p2).set (i + 2) p3 } := by
    unfold set_pixel
    rw [if_pos ⟨hx0, hxw⟩, if_pos ⟨hy0, hyh⟩]
    simp only []
    rw [if_pos (by omega : (3 * (y * img.width + x)).toNat + 2 < img.data.length)]
  have hga : (((img.data.set i p1).set (i + 1) p2).set (i + 2) p3)[i]? = some p1 := by
    rw [List.getElem?_set_ne (by omega), List.getElem?_set_ne (by omega),
      List.getElem?_set_self (by omega)]
  have hgb : (((img.data.set i p1).set (i + 1) p2).set (i + 2) p3)[i + 1]? = some p2 := by
    rw [List.getElem?_set_ne (by omega),
      List.getElem?_set_self (by simp only [List.length_set]; omega)]
  have hgc : (((img.data.set i p1).set (i + 1) p2).set (i + 2) p3)[i + 2]? = some p3 := by
    rw [List.getElem?_set_self (by simp only [List.length_set]; omega)]
  refine ⟨_, hset, rfl, rfl, rfl, rfl, rfl, by simp only [List.length_set], hga, hgb, hgc,
    ?_, ?_⟩
  · intro k hk1 hk2 hk3
    rw [List.getElem?_set_ne (fun h => hk3 h.symm), List.getElem?_set_ne (fun h => hk2 h.symm),
      List.getElem?_set_ne (fun h => hk1 h.symm)]
  · unfold get_pixel
    rw [if_pos ⟨hx0, hxw⟩, if_pos ⟨hy0, hyh⟩]
    simp only [hga, hgb, hgc]

/-- Witness for C10 at the 2x2 black image, `(x, y) = (1, 0)`,
`p = (1, 2, 3)`. -/
theorem hdr_C10_set_get_witness :
    ∃ img2, set_pixel (create_black_image 2 2) 1 0 ((1 : ℝ), (2 : ℝ), (3 : ℝ)) =
        Except.ok img2 ∧
      get_pixel img2 1 0 = Except.ok (1, 2, 3) := by
  obtain ⟨img2, hset, -, -, -, -, -, -, -, -, -, -, hget⟩ :=
    hdr_C10_set_get (create_black_image 2 2) 1 0 ((1 : ℝ), (2 : ℝ), (3 : ℝ)) rfl
      (by decide) (by decide)
  exact ⟨img2, hset, hget⟩

/-- Witness for C2 at `w = h = 1`. -/
theorem hdr_C2_roundtrip_witness :
    ∃ out, save (create_black_image 1 1) = Except.ok out ∧
      load_from_file out = Except.ok
        { data := List.replicate (3 * (1 : Int) * 1).toNat 0
          width := 1
          height := 1
          xFlipped := false
          yFlipped := false
          rotated := false } :=
  hdr_C2_roundtrip 1 1 (by decide) (by decide)

/-- Witness for C4 (amended) at `w = h = 1`. -/
theorem hdr_C4_amended_witness :
    parseFile ((SIG ++ [NL]) ++ ((resCore 1 1 ++ [NL]) ++ (([] ++ [NL]) ++
        (([35, 32, 99] ++ [NL]) ++ List.replicate (4 * ((1 : Int) * 1).toNat) 0)))) =
      Except.ok ⟨List.replicate (4 * ((1 : Int) * 1).toNat) 0, 1, 1, false, false, false⟩ :=
  hdr_C4_amended 1 1 (by decide) (by decide)

/-- Witness for C5 (amended) at `w = h = 1`. -/
theorem hdr_C5_amended_witness :
    (parseFile ((resCore 1 1 ++ [NL]) ++ ((SIG ++ [NL]) ++
        List.replicate (4 * ((1 : Int) * 1).toNat) 0)) =
      Except.ok ⟨List.replicate (4 * ((1 : Int) * 1).toNat) 0, 1, 1, false, false, false⟩ ∧
    parseFile ((resCore 1 1 ++ [NL]) ++ List.replicate (4 * ((1 : Int) * 1).toNat) 0) =
      Except.error ("Invalid header.")) :=
  hdr_C5_amended 1 1 (by decide) (by decide)
